import Mathlib

/-!
Shallow embedding of `backend/app/bedrock.py` (the message-to-wire
translation, model resolution and pricing core of the repository) and a
verification of its specification.

Modelling conventions:
* Python `str` is `String`; Python dicts used as lookup tables are
  association lists queried with `List.lookup` (mirroring `dict.get`).
* Python truthiness of an optional string (`if s:`) is `pyOptStrTruthy`:
  `None` and `""` are falsy, everything else truthy.
* Python floats are modelled as rationals (`ℚ`): the claims under
  verification concern lookup and formula structure, not rounding.
* `base64.b64decode` is an abstract total decoding function passed as a
  parameter (`b64`); content bodies are assumed to be valid base64, as
  the data model requires for image/attachment payloads.
* Raising an exception is `Except.error`; the exception message is kept
  only as a plain string.
-/

namespace Bedrock

/- ## Data model -/

/-- Python truthiness of an optional string: `None` and `""` are falsy. -/
def pyOptStrTruthy : Option String → Bool
  | none => false
  | some s => !(s == "")

/-- A Python value that may or may not be a plain string.  Content bodies
are of this type: `pstr` is an actual `str`, `pother` is any non-string
value (its payload is an opaque tag; the code only ever tests
`isinstance(body, str)` on text bodies). -/
inductive Body where
  | pstr (s : String)
  | pother (tag : String)
deriving DecidableEq, Repr

/-- The caller-supplied grounding source, a JSON-like dict.  The code
passes it through opaquely, so a flat string map suffices. -/
abbrev GroundingDict := List (String × String)

/-- `app.repositories.models.custom_bot_guardrails.BedrockGuardrailsModel`
(module not under `src/`).  Modelled from the spec: a guardrail carries an
identifier (arn), a version, and a grounding threshold. -/
structure BedrockGuardrailsModel where
  guardrail_arn : String
  guardrail_version : String
  grounding_threshold : ℚ
deriving DecidableEq, Repr

/-- `app.repositories.models.conversation.ContentModel` (module not under
`src/`).  Modelled from the spec: a polymorphic content block with a type
tag, a body payload, and variant-specific metadata (image: media type;
attachment: file name).  The tag is a plain string, as the code
string-compares it and raises on anything unrecognized. -/
structure ContentModel where
  content_type : String
  body : Body
  media_type : Option String
  file_name : Option String
deriving DecidableEq, Repr

/-- `app.repositories.models.conversation.MessageModel` (module not under
`src/`).  Modelled from the spec: a turn is a role plus an ordered list of
content blocks. -/
structure MessageModel where
  role : String
  content : List ContentModel
deriving DecidableEq, Repr

/-- `app.repositories.models.custom_bot.GenerationParamsModel` (module not
under `src/`).  Modelled from the spec: the explicit generation-parameter
overrides the composer reads (max tokens, temperature, top-p, stop
sequences). -/
structure GenerationParamsModel where
  max_tokens : Int
  temperature : ℚ
  top_p : ℚ
  stop_sequences : List String
deriving DecidableEq, Repr

/-- `DEFAULT_GENERATION_CONFIG` from `app.config` (module not under
`src/`).  Modelled from the spec: the process-wide default generation
configuration, fixed at startup, containing max tokens, temperature,
top-p, top-k and stop sequences. -/
structure DefaultGenerationConfig where
  max_tokens : Int
  temperature : ℚ
  top_p : ℚ
  top_k : Int
  stop_sequences : List String
deriving DecidableEq, Repr

/- ## Model resolver (`get_model_id`) -/

/-- The `base_model_ids` table of `get_model_id`. -/
def base_model_ids : List (String × String) :=
  [ ("claude-v2", "anthropic.claude-v2:1"),
    ("claude-instant-v1", "anthropic.claude-instant-v1"),
    ("claude-v3-sonnet", "anthropic.claude-3-sonnet-20240229-v1:0"),
    ("claude-v3-haiku", "anthropic.claude-3-haiku-20240307-v1:0"),
    ("claude-v3-opus", "anthropic.claude-3-opus-20240229-v1:0"),
    ("claude-v3.5-sonnet", "anthropic.claude-3-5-sonnet-20240620-v1:0"),
    ("claude-v3.5-sonnet-v2", "anthropic.claude-3-5-sonnet-20241022-v2:0"),
    ("claude-v3.5-haiku", "anthropic.claude-3-5-haiku-20241022-v1:0"),
    ("mistral-7b-instruct", "mistral.mistral-7b-instruct-v0:2"),
    ("mixtral-8x7b-instruct", "mistral.mixtral-8x7b-instruct-v0:1"),
    ("mistral-large", "mistral.mistral-large-2402-v1:0") ]

/-- The `cross_region_inference_models` set of `get_model_id`. -/
def cross_region_inference_models : List String :=
  [ "claude-v3-sonnet", "claude-v3-haiku", "claude-v3-opus",
    "claude-v3.5-sonnet", "claude-v3.5-sonnet-v2", "claude-v3.5-haiku" ]

/-- The `supported_region_prefixes` table of `get_model_id`. -/
def supported_region_prefixes : List (String × String) :=
  [ ("us-east-1", "us"), ("us-west-2", "us"),
    ("eu-west-1", "eu"), ("eu-central-1", "eu"), ("eu-west-3", "eu"),
    ("ap-southeast-2", "au") ]

/-- `get_model_id(model, enable_cross_region, bedrock_region)`.
`raise ValueError` is `Except.error`; `if not base_model_id` and
`if region_prefix` follow Python truthiness. -/
def get_model_id (model : String) (enable_cross_region : Bool)
    (bedrock_region : String) : Except String String :=
  match List.lookup model base_model_ids with
  | none => .error ("Unsupported model: " ++ model)
  | some base_model_id =>
    if base_model_id = "" then .error ("Unsupported model: " ++ model)
    else if enable_cross_region = true ∧ model ∈ cross_region_inference_models then
      match List.lookup bedrock_region supported_region_prefixes with
      | some p =>
        if p = "" then .ok base_model_id
        else .ok (p ++ "." ++ base_model_id)
      | none => .ok base_model_id
    else .ok base_model_id

/- ## Request composer: wire types -/

/-- One wire-level content block, a sum-type rendering of the dict shapes
built by `process_content`:
`{"text": v}`, `{"guardContent": grounding_source}`,
`{"guardContent": {"text": {"text": body, "qualifiers": qs}}}`,
`{"image": {"format": f, "source": {"bytes": b}}}`, and
`{"document": {"format": f, "name": n, "source": {"bytes": b}}}`. -/
inductive WireBlock where
  | text (value : Option Body)
  | guardContentSource (g : Option GroundingDict)
  | guardContentQuery (body : Body) (qualifiers : List String)
  | image (format : String) (sourceBytes : List Nat)
  | document (format : String) (name : String) (sourceBytes : List Nat)
deriving DecidableEq, Repr

/-- One entry of the composed `messages` list: a role with the flattened
wire content blocks of that turn. -/
structure WireMessage where
  role : String
  content : List WireBlock
deriving DecidableEq, Repr

/-- The camel-cased `inference_config` part of the wire request. -/
structure InferenceConfig where
  maxTokens : Int
  temperature : ℚ
  topP : ℚ
  stopSequences : List String
deriving DecidableEq, Repr

/-- The `guardrailConfig` block of the wire request
(`GuardrailConfig` TypedDict in the source); the optional
`streamProcessingMode` key is an `Option`. -/
structure GuardrailConfig where
  guardrailIdentifier : String
  guardrailVersion : String
  trace : String
  streamProcessingMode : Option String
deriving DecidableEq, Repr

/-- The `ConverseApiRequest` TypedDict.  The `system` entries are the
text values of the `{"text": ...}` dicts; `additional_model_request_fields`
holds exactly the popped `top_k`; the optional `guardrailConfig` key is an
`Option` (absence of the key is `none`, never a null value). -/
structure ConverseApiRequest where
  inference_config : InferenceConfig
  additional_model_request_fields_top_k : Int
  model_id : String
  messages : List WireMessage
  stream : Bool
  system : List String
  guardrailConfig : Option GuardrailConfig
deriving DecidableEq, Repr

/- ## File-name helpers -/

/-- The `supported_formats` table of `_get_converse_supported_format`. -/
def supported_formats : List (String × String) :=
  [ ("pdf", "pdf"), ("csv", "csv"), ("doc", "doc"), ("docx", "docx"),
    ("xls", "xls"), ("xlsx", "xlsx"), ("html", "html"), ("txt", "txt"),
    ("md", "md") ]

/-- `_get_converse_supported_format(ext)`: allow-listed extensions map to
themselves, everything else to `"txt"`. -/
def _get_converse_supported_format (ext : String) : String :=
  (List.lookup ext supported_formats).getD "txt"

/-- Python `\s` on the inputs at hand (ASCII whitespace; the file names
the claims quantify over contain no non-ASCII whitespace). -/
def pyIsSpace (c : Char) : Bool :=
  c == ' ' || c == '\t' || c == '\n' || c == '\r' ||
    c == Char.ofNat 11 || c == Char.ofNat 12

/-- The character class kept by the first substitution of
`_convert_to_valid_file_name`: `[a-zA-Z0-9\s\-\(\)\[\]]`. -/
def allowedChar (c : Char) : Bool :=
  c.isAlphanum || pyIsSpace c ||
    c == '-' || c == '(' || c == ')' || c == '[' || c == ']'

/-- `re.sub(r"\s+", " ", _)` on a character list: every maximal run of
whitespace becomes a single space.  The flag records whether the previous
character belonged to a whitespace run. -/
def collapseWsAux : Bool → List Char → List Char
  | _, [] => []
  | prevWs, c :: cs =>
    if pyIsSpace c then
      if prevWs then collapseWsAux true cs
      else ' ' :: collapseWsAux true cs
    else c :: collapseWsAux false cs

/-- Python `str.strip()`: drop leading and trailing whitespace. -/
def pyStripChars (l : List Char) : List Char :=
  ((l.dropWhile pyIsSpace).reverse.dropWhile pyIsSpace).reverse

/-- `_convert_to_valid_file_name(file_name)`: strip disallowed
characters, collapse whitespace runs, strip ends. -/
def _convert_to_valid_file_name (file_name : String) : String :=
  String.mk (pyStripChars (collapseWsAux false (file_name.data.filter allowedChar)))

/-- Index of the last `.` in a character list, if any
(Python `str.rfind(".")` when the character occurs). -/
def lastDotIdx (l : List Char) : Option Nat :=
  match l.reverse.findIdx? (fun c => c == '.') with
  | some j => some (l.length - 1 - j)
  | none => none

/-- `pathlib.PurePath(name).suffix` for a plain file name (no path
separators, as the repository uses it): the part of the name from the
last dot, when that dot is neither the first nor the last character;
otherwise `""`. -/
def pySuffix (name : String) : String :=
  let l := name.data
  match lastDotIdx l with
  | some i => if 0 < i ∧ i < l.length - 1 then String.mk (l.drop i) else ""
  | none => ""

/-- `pathlib.PurePath(name).stem` for a plain file name: the name with
`pySuffix` removed. -/
def pyStem (name : String) : String :=
  let l := name.data
  match lastDotIdx l with
  | some i => if 0 < i ∧ i < l.length - 1 then String.mk (l.take i) else name
  | none => name

/- ## Request composer (`compose_args_for_converse_api`) -/

/-- `mapM` over `Except` with left-to-right evaluation and fail-fast
error propagation, mirroring how a Python comprehension raises at the
first failing element. -/
def mapMExcept {α β : Type} (f : α → Except String β) :
    List α → Except String (List β)
  | [] => .ok []
  | a :: as =>
    match f a with
    | .error e => .error e
    | .ok b =>
      match mapMExcept f as with
      | .error e => .error e
      | .ok bs => .ok (b :: bs)

/-- The inner `process_content(c, role)` closure of
`compose_args_for_converse_api`; its captured `guardrail`,
`grounding_source` and the base64 decoder are explicit parameters.
`b64` is a total abstract decoder: bodies of image/attachment blocks are
assumed valid base64 (a non-string body is still a `TypeError`). -/
def process_content (b64 : String → List Nat)
    (grounding_source : Option GroundingDict)
    (guardrail : Option BedrockGuardrailsModel)
    (c : ContentModel) (role : String) : Except String (List WireBlock) :=
  if c.content_type = "text" then
    if role = "user" ∧ (∃ g, guardrail = some g ∧ 0 < g.grounding_threshold) then
      .ok [ WireBlock.guardContentSource grounding_source,
            WireBlock.guardContentQuery c.body ["query"] ]
    else if role = "assistant" then
      .ok [ WireBlock.text
              (match c.body with
               | .pstr s => some (Body.pstr s)
               | .pother _ => none) ]
    else
      .ok [WireBlock.text (some c.body)]
  else if c.content_type = "image" then
    match
      (match c.media_type with
       | none => Except.ok "unknown"
       | some m =>
         if m = "" then Except.ok "unknown"
         else
           match (m.splitOn "/").get? 1 with
           | some fmt => Except.ok fmt
           | none => Except.error "IndexError: list index out of range")
    with
    | .error e => .error e
    | .ok fmt =>
      match c.body with
      | .pstr s => .ok [WireBlock.image fmt (b64 s)]
      | .pother _ => .error "TypeError: b64decode expects a string body"
  else if c.content_type = "attachment" then
    match c.file_name with
    | none => .error "TypeError: expected str, bytes or os.PathLike object"
    | some fn =>
      match c.body with
      | .pstr s =>
        .ok [ WireBlock.document
                (_get_converse_supported_format ((pySuffix fn).drop 1))
                (_convert_to_valid_file_name (pyStem fn))
                (b64 s) ]
      | .pother _ => .error "TypeError: b64decode expects a string body"
  else
    .error ("Unsupported content type: " ++ c.content_type)

/-- One entry of the `arg_messages` comprehension: translate every block
of the turn and flatten. -/
def process_message (b64 : String → List Nat)
    (grounding_source : Option GroundingDict)
    (guardrail : Option BedrockGuardrailsModel)
    (m : MessageModel) : Except String WireMessage :=
  match mapMExcept (fun c => process_content b64 grounding_source guardrail c m.role)
      m.content with
  | .error e => .error e
  | .ok blockLists => .ok (WireMessage.mk m.role blockLists.flatten)

/-- The `inference_config` merge `{**DEFAULT_GENERATION_CONFIG, **(...)}`
with the camel-case key conversion: with explicit generation parameters,
their four fields override; `top_k` always comes from the defaults (it
is popped out below). -/
def composeInferenceConfig (dcfg : DefaultGenerationConfig) :
    Option GenerationParamsModel → InferenceConfig
  | some p =>
    { maxTokens := p.max_tokens, temperature := p.temperature,
      topP := p.top_p, stopSequences := p.stop_sequences }
  | none =>
    { maxTokens := dcfg.max_tokens, temperature := dcfg.temperature,
      topP := dcfg.top_p, stopSequences := dcfg.stop_sequences }

/-- The `system` field: `[{"text": instruction}] if instruction else []`,
with Python truthiness of the optional string. -/
def composeSystem : Option String → List String
  | some s => if s = "" then [] else [s]
  | none => []

/-- The `guardrailConfig` value built when a guardrail is attached:
trace fixed to "enabled", async stream processing mode iff streaming. -/
def composeGuardrailConfig (stream : Bool) (g : BedrockGuardrailsModel) :
    GuardrailConfig :=
  { guardrailIdentifier := g.guardrail_arn,
    guardrailVersion := g.guardrail_version,
    trace := "enabled",
    streamProcessingMode := if stream then some "async" else none }

/-- `compose_args_for_converse_api`.  The `messages` comprehension is
evaluated first (so content errors raise before model resolution, as in
the source); turns with role `system` or `instruction` are filtered out;
the guardrail block is added afterwards when both arn and version are
truthy. -/
def compose_args_for_converse_api
    (b64 : String → List Nat)
    (dcfg : DefaultGenerationConfig)
    (enable_cross_region : Bool) (bedrock_region : String)
    (messages : List MessageModel) (model : String)
    (instruction : Option String) (stream : Bool)
    (generation_params : Option GenerationParamsModel)
    (grounding_source : Option GroundingDict)
    (guardrail : Option BedrockGuardrailsModel) :
    Except String ConverseApiRequest :=
  match
    mapMExcept (process_message b64 grounding_source guardrail)
      (messages.filter (fun m => !(m.role == "system" || m.role == "instruction")))
  with
  | .error e => .error e
  | .ok arg_messages =>
    match get_model_id model enable_cross_region bedrock_region with
    | .error e => .error e
    | .ok model_id =>
      let args : ConverseApiRequest :=
        { inference_config := composeInferenceConfig dcfg generation_params,
          additional_model_request_fields_top_k := dcfg.top_k,
          model_id := model_id,
          messages := arg_messages,
          stream := stream,
          system := composeSystem instruction,
          guardrailConfig := none }
      match guardrail with
      | some g =>
        if g.guardrail_arn ≠ "" ∧ g.guardrail_version ≠ "" then
          .ok { args with
                guardrailConfig := some (composeGuardrailConfig stream g) }
        else .ok args
      | none => .ok args

/- ## Price calculator (`calculate_price`) -/

/-- Per-model `{input, output}` field map of per-1000-token unit
prices. -/
abbrev FieldTable := List (String × ℚ)

/-- Per-region model table. -/
abbrev ModelTable := List (String × FieldTable)

/-- `BEDROCK_PRICING`: region → model → field → unit price.  The
concrete table lives in `app.config`, outside `src/`; the claims
quantify over tables, so it is a parameter. -/
abbrev PricingTable := List (String × ModelTable)

/-- Python `d[k]`: a missing key raises `KeyError`. -/
def pyGetItem {β : Type} (d : List (String × β)) (k : String) :
    Except String β :=
  match List.lookup k d with
  | some v => .ok v
  | none => .error ("KeyError: " ++ k)

/-- The unit price `calculate_price` uses for one field: the chained
`.get(region, {}).get(model, {}).get(field, dflt)` of the source. -/
def effUnitPrice (tbl : PricingTable) (region model field : String)
    (dflt : ℚ) : ℚ :=
  (List.lookup field
    ((List.lookup model ((List.lookup region tbl).getD [])).getD [])).getD dflt

/-- `calculate_price(model, input_tokens, output_tokens, region)` over an
explicit pricing table.  Python evaluates the fallback argument of each
`.get(...)` call eagerly, so `BEDROCK_PRICING["default"][model][field]`
is computed — and can raise `KeyError` — before the region-specific
entry is consulted; the embedding preserves that order.  Token counts
are naturals, prices rationals. -/
def calculate_price (BEDROCK_PRICING : PricingTable) (model : String)
    (input_tokens output_tokens : Nat) (region : String) : Except String ℚ :=
  match (pyGetItem BEDROCK_PRICING "default").bind (fun dt =>
          (pyGetItem dt model).bind (fun fe => pyGetItem fe "input")) with
  | .error e => .error e
  | .ok default_input =>
    let input_price := effUnitPrice BEDROCK_PRICING region model "input" default_input
    match (pyGetItem BEDROCK_PRICING "default").bind (fun dt =>
            (pyGetItem dt model).bind (fun fe => pyGetItem fe "output")) with
    | .error e => .error e
    | .ok default_output =>
      let output_price := effUnitPrice BEDROCK_PRICING region model "output" default_output
      .ok (input_price * (input_tokens : ℚ) / 1000 +
           output_price * (output_tokens : ℚ) / 1000)

/-- Whether the default region's table has an entry for the model. -/
def defaultHasModel (tbl : PricingTable) (model : String) : Bool :=
  match List.lookup "default" tbl with
  | none => false
  | some dt => (List.lookup model dt).isSome

/- ## Predicates used by the claims -/

/-- The content types `process_content` supports. -/
def supportedContentType (t : String) : Bool :=
  t == "text" || t == "image" || t == "attachment"

/-- Whether a body is a Python `str`. -/
def isPyStr : Body → Bool
  | .pstr _ => true
  | .pother _ => false

/-- A truthy media type must contain a `/` (i.e. `split("/")` has a
second element), as media types such as `"image/png"` do. -/
def mediaTypeOk : Option String → Bool
  | none => true
  | some m => m == "" || decide (2 ≤ (m.splitOn "/").length)

/-- The data-model invariants of a content block, guaranteed by the
pydantic models outside `src/`: image and attachment payloads are base64
strings, an image's media type (when truthy) has the `major/minor` form,
and an attachment carries a file name. -/
def wellFormedContent (c : ContentModel) : Bool :=
  (!(c.content_type == "image") || (isPyStr c.body && mediaTypeOk c.media_type)) &&
  (!(c.content_type == "attachment") || (isPyStr c.body && c.file_name.isSome))

/- ## Concrete data used by the witnesses -/

/-- A concrete default generation configuration. -/
def dcfgW : DefaultGenerationConfig :=
  ⟨1024, 6/10, 999/1000, 250, ["Human: "]⟩

/-- A concrete guardrail with truthy arn and version. -/
def guardrailW : BedrockGuardrailsModel :=
  ⟨"arn:aws:bedrock:gr/abc", "DRAFT", 0⟩

/-- A concrete successful compose call (streaming, with instruction and
guardrail). -/
def composeW : Except String ConverseApiRequest :=
  compose_args_for_converse_api (fun _ => []) dcfgW false "us-east-1"
    [⟨"user", [⟨"text", Body.pstr "hi", none, none⟩]⟩] "claude-v3-sonnet"
    (some "You are terse") true none none (some guardrailW)

/-- The request produced by `composeW`. -/
def reqW : ConverseApiRequest :=
  composeW.toOption.getD ⟨⟨0, 0, 0, []⟩, 0, "", [], false, [], none⟩

/-- A pricing table with both a default and a regional entry for one
model. -/
def pricingW : PricingTable :=
  [ ("default", [("claude-v3-haiku", [("input", 25/100000), ("output", 125/100000)])]),
    ("us-east-1", [("claude-v3-haiku", [("input", 3/10000), ("output", 15/10000)])]) ]

/-- A pricing table with a regional entry only — no default region at
all. -/
def pricingW2 : PricingTable :=
  [ ("ap-northeast-1", [("claude-v2", [("input", 8/1000), ("output", 24/1000)])]) ]

/- ## Generic lookup lemmas -/

/-- A successful association-list lookup returns one of the stored
values. -/
theorem lookup_mem_snd {α β : Type} [BEq α] {k : α} {b : β} :
    ∀ {l : List (α × β)}, List.lookup k l = some b → b ∈ l.map Prod.snd := by
  intro l
  induction l with
  | nil => intro h; simp [List.lookup] at h
  | cons hd tl ih =>
    intro h
    rw [List.lookup] at h
    cases hkb : (k == hd.1) with
    | true =>
      rw [hkb] at h
      simp at h
      simp [h]
    | false =>
      rw [hkb] at h
      simpa using Or.inr (ih h)

/-- Every concrete base model id in the table is non-empty. -/
theorem base_model_ids_ne_empty {model base : String}
    (h : List.lookup model base_model_ids = some base) : base ≠ "" := by
  have hall : ∀ b ∈ base_model_ids.map Prod.snd, b ≠ "" := by decide
  exact hall base (lookup_mem_snd h)

/-- Every concrete region in the table maps to a non-empty region
code. -/
theorem region_code_ne_empty {region p : String}
    (h : List.lookup region supported_region_prefixes = some p) : p ≠ "" := by
  have hall : ∀ b ∈ supported_region_prefixes.map Prod.snd, b ≠ "" := by decide
  exact hall p (lookup_mem_snd h)

/-- Any model present in the base table resolves successfully. -/
theorem get_model_id_ok {model base : String}
    (hbase : List.lookup model base_model_ids = some base)
    (enable : Bool) (region : String) :
    ∃ mid, get_model_id model enable region = .ok mid := by
  have hbne := base_model_ids_ne_empty hbase
  by_cases hc : (enable = true ∧ model ∈ cross_region_inference_models)
  · cases hr : List.lookup region supported_region_prefixes with
    | none => exact ⟨base, by simp [get_model_id, hbase, hbne, hc, hr]⟩
    | some p =>
      by_cases hp : p = ""
      · exact ⟨base, by simp [get_model_id, hbase, hbne, hc, hr, hp]⟩
      · exact ⟨p ++ "." ++ base, by simp [get_model_id, hbase, hbne, hc, hr, hp]⟩
  · exact ⟨base, by simp [get_model_id, hbase, hbne, hc]⟩

/-- Resolution succeeds exactly when the model is in the base table. -/
theorem get_model_id_ok_iff (model : String) (enable : Bool) (region : String) :
    (∃ mid, get_model_id model enable region = .ok mid) ↔
      (List.lookup model base_model_ids).isSome = true := by
  constructor
  · rintro ⟨mid, h⟩
    cases hl : List.lookup model base_model_ids with
    | none =>
      unfold get_model_id at h
      rw [hl] at h
      exact Except.noConfusion h
    | some b => simp
  · intro h
    cases hl : List.lookup model base_model_ids with
    | none => rw [hl] at h; simp at h
    | some b => exact get_model_id_ok hl enable region

/- ## Composer lemmas -/

/-- `mapMExcept` succeeds exactly when the function succeeds on every
element. -/
theorem mapMExcept_ok_iff {α β : Type} (f : α → Except String β) (l : List α) :
    (∃ bs, mapMExcept f l = .ok bs) ↔ ∀ a ∈ l, ∃ b, f a = .ok b := by
  induction l with
  | nil => simp [mapMExcept]
  | cons a as ih =>
    constructor
    · rintro ⟨bs, h⟩
      unfold mapMExcept at h
      cases hfa : f a with
      | error e => rw [hfa] at h; exact Except.noConfusion h
      | ok b =>
        rw [hfa] at h
        cases hrest : mapMExcept f as with
        | error e => rw [hrest] at h; exact Except.noConfusion h
        | ok bs' =>
          intro x hx
          rcases List.mem_cons.mp hx with hx | hx
          · exact ⟨b, by rw [hx]; exact hfa⟩
          · exact (ih.mp ⟨bs', hrest⟩) x hx
    · intro hall
      obtain ⟨b, hb⟩ := hall a (List.mem_cons_self a as)
      obtain ⟨bs, hbs⟩ := ih.mpr (fun x hx => hall x (List.mem_cons_of_mem a hx))
      exact ⟨b :: bs, by unfold mapMExcept; rw [hb, hbs]⟩

/-- A turn translates successfully exactly when each of its blocks
does. -/
theorem process_message_ok_iff (b64 : String → List Nat)
    (gs : Option GroundingDict) (guardrail : Option BedrockGuardrailsModel)
    (m : MessageModel) :
    (∃ w, process_message b64 gs guardrail m = .ok w) ↔
      ∀ c ∈ m.content, ∃ l, process_content b64 gs guardrail c m.role = .ok l := by
  constructor
  · rintro ⟨w, h⟩
    unfold process_message at h
    cases hin : mapMExcept (fun c => process_content b64 gs guardrail c m.role)
        m.content with
    | error e => rw [hin] at h; exact Except.noConfusion h
    | ok bl => exact (mapMExcept_ok_iff _ _).mp ⟨bl, hin⟩
  · intro hall
    obtain ⟨bl, hbl⟩ := (mapMExcept_ok_iff _ _).mpr hall
    exact ⟨_, by unfold process_message; rw [hbl]⟩

/-- A well-formed block of supported type always translates. -/
theorem process_content_ok_of_supported (b64 : String → List Nat)
    (gs : Option GroundingDict) (guardrail : Option BedrockGuardrailsModel)
    (c : ContentModel) (role : String)
    (hw : wellFormedContent c = true)
    (hs : supportedContentType c.content_type = true) :
    ∃ l, process_content b64 gs guardrail c role = .ok l := by
  unfold process_content
  by_cases ht : c.content_type = "text"
  · rw [if_pos ht]
    by_cases h1 : (role = "user" ∧ ∃ g, guardrail = some g ∧ 0 < g.grounding_threshold)
    · rw [if_pos h1]; exact ⟨_, rfl⟩
    · rw [if_neg h1]
      by_cases h2 : role = "assistant"
      · rw [if_pos h2]; exact ⟨_, rfl⟩
      · rw [if_neg h2]; exact ⟨_, rfl⟩
  · rw [if_neg ht]
    by_cases hi : c.content_type = "image"
    · rw [if_pos hi]
      have hw' : isPyStr c.body = true ∧ mediaTypeOk c.media_type = true := by
        unfold wellFormedContent at hw
        rw [hi] at hw
        simpa using hw
      obtain ⟨hbody, hmedia⟩ := hw'
      cases hb : c.body with
      | pother t => rw [hb] at hbody; simp [isPyStr] at hbody
      | pstr s =>
        cases hmt : c.media_type with
        | none => exact ⟨_, rfl⟩
        | some m =>
          by_cases hm : m = ""
          · refine ⟨[WireBlock.image "unknown" (b64 s)], ?_⟩
            dsimp only
            rw [if_pos hm]
          · rw [hmt] at hmedia
            unfold mediaTypeOk at hmedia
            rw [Bool.or_eq_true] at hmedia
            rcases hmedia with hmedia | hmedia
            · exact absurd (by simpa using hmedia) hm
            · have hlen : 2 ≤ (m.splitOn "/").length := of_decide_eq_true hmedia
              cases hg : (m.splitOn "/").get? 1 with
              | none =>
                exfalso
                have := List.get?_eq_none.mp hg
                omega
              | some fmt =>
                refine ⟨[WireBlock.image fmt (b64 s)], ?_⟩
                dsimp only
                rw [if_neg hm, hg]
    · rw [if_neg hi]
      by_cases ha : c.content_type = "attachment"
      · rw [if_pos ha]
        have hw' : isPyStr c.body = true ∧ c.file_name.isSome = true := by
          unfold wellFormedContent at hw
          rw [ha] at hw
          simpa using hw
        obtain ⟨hbody, hfn⟩ := hw'
        cases hfnv : c.file_name with
        | none => rw [hfnv] at hfn; simp at hfn
        | some fn =>
          cases hb : c.body with
          | pother t => rw [hb] at hbody; simp [isPyStr] at hbody
          | pstr s => exact ⟨_, rfl⟩
      · exfalso
        unfold supportedContentType at hs
        rw [Bool.or_eq_true, Bool.or_eq_true] at hs
        rcases hs with (hs | hs) | hs
        · exact ht (by simpa using hs)
        · exact hi (by simpa using hs)
        · exact ha (by simpa using hs)

/-- A successful translation implies the block's type is supported. -/
theorem process_content_supported_of_ok {b64 : String → List Nat}
    {gs : Option GroundingDict} {guardrail : Option BedrockGuardrailsModel}
    {c : ContentModel} {role : String} {l : List WireBlock}
    (h : process_content b64 gs guardrail c role = .ok l) :
    supportedContentType c.content_type = true := by
  unfold process_content at h
  split at h
  · rename_i ht
    unfold supportedContentType
    rw [ht]
    decide
  · split at h
    · rename_i hnt hi
      unfold supportedContentType
      rw [hi]
      decide
    · split at h
      · rename_i hnt hni ha
        unfold supportedContentType
        rw [ha]
        decide
      · exact Except.noConfusion h

/-- Shape facts about any successfully composed request: its system list
and its guardrail block are determined by the instruction, guardrail and
stream arguments. -/
theorem compose_ok_elim
    {b64 : String → List Nat} {dcfg : DefaultGenerationConfig}
    {ecr : Bool} {region : String} {msgs : List MessageModel}
    {model : String} {instruction : Option String} {stream : Bool}
    {gp : Option GenerationParamsModel} {gs : Option GroundingDict}
    {guardrail : Option BedrockGuardrailsModel} {r : ConverseApiRequest}
    (h : compose_args_for_converse_api b64 dcfg ecr region msgs model
        instruction stream gp gs guardrail = .ok r) :
    r.system = composeSystem instruction ∧
    r.stream = stream ∧
    (∀ g, guardrail = some g →
      ((g.guardrail_arn ≠ "" ∧ g.guardrail_version ≠ "") →
         r.guardrailConfig = some (composeGuardrailConfig stream g)) ∧
      ((g.guardrail_arn = "" ∨ g.guardrail_version = "") →
         r.guardrailConfig = none)) ∧
    (guardrail = none → r.guardrailConfig = none) := by
  unfold compose_args_for_converse_api at h
  split at h
  · exact Except.noConfusion h
  · split at h
    · exact Except.noConfusion h
    · split at h
      · rename_i g
        split at h
        · rename_i hcond
          injection h with hr
          subst hr
          refine ⟨rfl, rfl, ?_, ?_⟩
          · intro g' hg'
            injection hg' with he
            subst he
            refine ⟨fun _ => rfl, fun hor => ?_⟩
            exact hor.elim (fun h1 => absurd h1 hcond.1) (fun h2 => absurd h2 hcond.2)
          · intro hn
            exact Option.noConfusion hn
        · rename_i hcond
          injection h with hr
          subst hr
          refine ⟨rfl, rfl, ?_, ?_⟩
          · intro g' hg'
            injection hg' with he
            subst he
            exact ⟨fun hc => absurd hc hcond, fun _ => rfl⟩
          · intro hn
            exact Option.noConfusion hn
      · injection h with hr
        subst hr
        refine ⟨rfl, rfl, ?_, fun _ => rfl⟩
        intro g' hg'
        exact Option.noConfusion hg'

/- ## The claims -/

/-- C1: for a model in the cross-region-eligible subset, with
cross-region inference enabled and the calling region present in the
supported region table, resolution returns exactly the region code, a
dot, then the base concrete id; with cross-region disabled, a model
outside the subset, or a region absent from the table, resolution
returns the base concrete id unchanged. -/
theorem c1_cross_region_resolution (model bedrock_region base : String)
    (hbase : List.lookup model base_model_ids = some base) :
    (model ∈ cross_region_inference_models →
      ∀ p, List.lookup bedrock_region supported_region_prefixes = some p →
        get_model_id model true bedrock_region = .ok (p ++ "." ++ base)) ∧
    (∀ enable : Bool,
      (enable = false ∨ model ∉ cross_region_inference_models ∨
        List.lookup bedrock_region supported_region_prefixes = none) →
      get_model_id model enable bedrock_region = .ok base) := by
  have hbne : base ≠ "" := base_model_ids_ne_empty hbase
  constructor
  · intro hcr p hp
    have hpne : p ≠ "" := region_code_ne_empty hp
    simp [get_model_id, hbase, hbne, hcr, hp, hpne]
  · intro enable henable
    rcases henable with he | hm | hr
    · subst he
      simp [get_model_id, hbase, hbne]
    · simp [get_model_id, hbase, hbne, hm]
    · cases enable with
      | false => simp [get_model_id, hbase, hbne]
      | true => simp [get_model_id, hbase, hbne, hr]

/-- Witness for C1 at a concrete model and region. -/
theorem c1_witness :
    get_model_id "claude-v3.5-haiku" true "eu-west-3" =
      .ok ("eu" ++ "." ++ "anthropic.claude-3-5-haiku-20241022-v1:0") ∧
    get_model_id "claude-v3.5-haiku" false "eu-west-3" =
      .ok "anthropic.claude-3-5-haiku-20241022-v1:0" :=
  ⟨(c1_cross_region_resolution "claude-v3.5-haiku" "eu-west-3"
      "anthropic.claude-3-5-haiku-20241022-v1:0" (by decide)).1
      (by decide) "eu" (by decide),
   (c1_cross_region_resolution "claude-v3.5-haiku" "eu-west-3"
      "anthropic.claude-3-5-haiku-20241022-v1:0" (by decide)).2
      false (Or.inl rfl)⟩

/-- C2: composing a single user turn with one text block, no guardrail,
no grounding source and no instruction yields a request whose system
list is empty, whose single message carries exactly one text block
holding the body, and whose guardrail config key is absent. -/
theorem c2_single_user_text_roundtrip
    (b64 : String → List Nat) (dcfg : DefaultGenerationConfig)
    (ecr : Bool) (region : String) (body : Body) (model base : String)
    (stream : Bool) (gp : Option GenerationParamsModel)
    (hbase : List.lookup model base_model_ids = some base) :
    ∃ r, compose_args_for_converse_api b64 dcfg ecr region
        [⟨"user", [⟨"text", body, none, none⟩]⟩] model none stream gp none none
        = .ok r ∧
      r.system = [] ∧
      r.messages = [⟨"user", [WireBlock.text (some body)]⟩] ∧
      r.guardrailConfig = none := by
  obtain ⟨mid, hmid⟩ := get_model_id_ok hbase ecr region
  simp only [compose_args_for_converse_api, mapMExcept, process_message,
    process_content, List.filter, hmid]
  exact ⟨_, rfl, rfl, rfl, rfl⟩

/-- Witness for C2 at a concrete input. -/
theorem c2_witness :
    ∃ r, compose_args_for_converse_api (fun _ => [])
        ⟨1024, 1, 1, 50, []⟩ false "us-east-1"
        [⟨"user", [⟨"text", Body.pstr "hello", none, none⟩]⟩]
        "claude-v3-haiku" none false none none none = .ok r ∧
      r.system = [] ∧
      r.messages = [⟨"user", [WireBlock.text (some (Body.pstr "hello"))]⟩] ∧
      r.guardrailConfig = none :=
  c2_single_user_text_roundtrip (fun _ => []) ⟨1024, 1, 1, 50, []⟩
    false "us-east-1" (Body.pstr "hello") "claude-v3-haiku"
    "anthropic.claude-3-haiku-20240307-v1:0" false none (by decide)

/-- C3: a user text block translated while a guardrail with positive
grounding threshold is supplied becomes exactly two wire blocks, the
grounding source first and the wrapped query second; and this is the
only translation path on which one logical block yields more than one
wire block. -/
theorem c3_grounding_expansion :
    (∀ (b64 : String → List Nat) (gs : Option GroundingDict)
       (g : BedrockGuardrailsModel) (body : Body) (mt fn : Option String),
       0 < g.grounding_threshold →
       process_content b64 gs (some g) ⟨"text", body, mt, fn⟩ "user" =
         .ok [WireBlock.guardContentSource gs,
              WireBlock.guardContentQuery body ["query"]]) ∧
    (∀ (b64 : String → List Nat) (gs : Option GroundingDict)
       (guardrail : Option BedrockGuardrailsModel) (c : ContentModel)
       (role : String) (l : List WireBlock),
       process_content b64 gs guardrail c role = .ok l → 2 ≤ l.length →
       c.content_type = "text" ∧ role = "user" ∧
         ∃ g, guardrail = some g ∧ 0 < g.grounding_threshold) := by
  constructor
  · intro b64 gs g body mt fn hg
    unfold process_content
    rw [if_pos rfl, if_pos ⟨rfl, g, rfl, hg⟩]
  · intro b64 gs guardrail c role l h hlen
    unfold process_content at h
    split at h
    · split at h
      · rename_i ht hcond
        exact ⟨ht, hcond.1, hcond.2⟩
      · split at h
        · injection h with hok; subst hok; simp at hlen
        · injection h with hok; subst hok; simp at hlen
    · split at h
      · split at h
        · exact Except.noConfusion h
        · split at h
          · injection h with hok; subst hok; simp at hlen
          · exact Except.noConfusion h
      · split at h
        · split at h
          · exact Except.noConfusion h
          · split at h
            · injection h with hok; subst hok; simp at hlen
            · exact Except.noConfusion h
        · exact Except.noConfusion h

/-- Witness for C3 at a concrete guardrail and block. -/
theorem c3_witness :
    process_content (fun _ => []) (some [("sourceText", "doc")])
        (some ⟨"arn:gr", "1", 1⟩)
        ⟨"text", Body.pstr "what is it", none, none⟩ "user" =
      .ok [WireBlock.guardContentSource (some [("sourceText", "doc")]),
           WireBlock.guardContentQuery (Body.pstr "what is it") ["query"]] :=
  c3_grounding_expansion.1 (fun _ => []) (some [("sourceText", "doc")])
    ⟨"arn:gr", "1", 1⟩ (Body.pstr "what is it") none none (by norm_num)

/-- C4 (amended): an attachment block becomes exactly one document block
whose format is the allow-list image of the extension and whose name is
the sanitized stem (disallowed characters stripped, whitespace runs
collapsed, ends trimmed); for the spec's example file name the emitted
name is "My Rsum (v2)" — the ".pdf!!" part is the path suffix, split off
before sanitization, and "." is not an allowed character — and the
format is "txt", since the extension "pdf!!" is outside the
allow-list. -/
theorem c4_attachment_document
    (b64 : String → List Nat) (gs : Option GroundingDict)
    (guardrail : Option BedrockGuardrailsModel)
    (bodyStr : String) (mt : Option String) (fn : String) (role : String) :
    process_content b64 gs guardrail ⟨"attachment", .pstr bodyStr, mt, some fn⟩ role =
      .ok [WireBlock.document
             (_get_converse_supported_format ((pySuffix fn).drop 1))
             (_convert_to_valid_file_name (pyStem fn))
             (b64 bodyStr)] ∧
    _convert_to_valid_file_name (pyStem "My Résumé (v2).pdf!!") = "My Rsum (v2)" ∧
    _get_converse_supported_format ((pySuffix "My Résumé (v2).pdf!!").drop 1) = "txt" :=
  ⟨rfl, rfl, rfl⟩

/-- Counterexample for C4 as stated: at the spec's own example input the
emitted document name is "My Rsum (v2)", not "My Rsum (v2).pdf". -/
theorem c4_counterexample :
    process_content (fun _ => []) none none
        ⟨"attachment", .pstr "JVBERi0=", none, some "My Résumé (v2).pdf!!"⟩ "user" =
      .ok [WireBlock.document "txt" "My Rsum (v2)" []] ∧
    "My Rsum (v2)" ≠ "My Rsum (v2).pdf" :=
  ⟨rfl, by decide⟩

/-- C5 (amended): when the default table has the model with both fields,
the price is the per-field regional price (with default fallback per
field) applied to the token counts; and a model absent from both the
region's table and the default table raises a lookup failure. -/
theorem c5_price_formula :
    (∀ (tbl : PricingTable) (model region : String) (it ot : Nat)
       (dt : ModelTable) (fe : FieldTable) (di dout : ℚ),
       List.lookup "default" tbl = some dt →
       List.lookup model dt = some fe →
       List.lookup "input" fe = some di →
       List.lookup "output" fe = some dout →
       calculate_price tbl model it ot region =
         .ok (effUnitPrice tbl region model "input" di * (it : ℚ) / 1000 +
              effUnitPrice tbl region model "output" dout * (ot : ℚ) / 1000)) ∧
    (∀ (tbl : PricingTable) (model region : String) (it ot : Nat),
       List.lookup model ((List.lookup region tbl).getD []) = none →
       List.lookup model ((List.lookup "default" tbl).getD []) = none →
       ∃ e, calculate_price tbl model it ot region = .error e) := by
  constructor
  · intro tbl model region it ot dt fe di dout hd hm hi ho
    simp [calculate_price, pyGetItem, Except.bind, hd, hm, hi, ho]
  · intro tbl model region it ot hr hd
    cases hdt : List.lookup "default" tbl with
    | none =>
      exact ⟨"KeyError: default",
        by simp [calculate_price, pyGetItem, Except.bind, hdt]⟩
    | some dt =>
      have hmd : List.lookup model dt = none := by
        rw [hdt] at hd
        simpa using hd
      exact ⟨"KeyError: " ++ model,
        by simp [calculate_price, pyGetItem, Except.bind, hdt, hmd]⟩

/-- Witness for C5: a region-specific entry is used when present and a
model absent from both tables raises. -/
theorem c5_witness :
    calculate_price pricingW "claude-v3-haiku" 1000 500 "us-east-1" =
      .ok (effUnitPrice pricingW "us-east-1" "claude-v3-haiku" "input" (25/100000)
             * (1000 : ℚ) / 1000 +
           effUnitPrice pricingW "us-east-1" "claude-v3-haiku" "output" (125/100000)
             * (500 : ℚ) / 1000) ∧
    ∃ e, calculate_price pricingW "unknown-model" 1 1 "eu-west-1" = .error e :=
  ⟨c5_price_formula.1 pricingW "claude-v3-haiku" "us-east-1" 1000 500
      _ _ _ _ rfl rfl rfl rfl,
   c5_price_formula.2 pricingW "unknown-model" "eu-west-1" 1 1 rfl rfl⟩

/-- Counterexample for C5 as stated: with the model present (both
fields) in the supplied region's table but absent from the default
table, the call raises instead of returning the region's price, because
the default entry is evaluated unconditionally. -/
theorem c5_counterexample :
    calculate_price pricingW2 "claude-v2" 1000 500 "ap-northeast-1" =
      .error ("KeyError: " ++ "default") ∧
    ∀ q : ℚ, (Except.error ("KeyError: " ++ "default") : Except String ℚ) ≠ .ok q :=
  ⟨rfl, fun _ h => Except.noConfusion h⟩

/-- C6: under the data-model invariants, composition succeeds exactly
when the model is in the resolver's base mapping and every content block
of every translated turn (roles system/instruction are filtered out
before translation) has a supported type; `Except` makes the call
all-or-nothing — an error never carries a partial request. -/
theorem c6_all_or_nothing
    (b64 : String → List Nat) (dcfg : DefaultGenerationConfig)
    (ecr : Bool) (region : String) (msgs : List MessageModel)
    (model : String) (instruction : Option String) (stream : Bool)
    (gp : Option GenerationParamsModel) (gs : Option GroundingDict)
    (guardrail : Option BedrockGuardrailsModel)
    (hw : ∀ m ∈ msgs, ∀ c ∈ m.content, wellFormedContent c = true) :
    (∃ r, compose_args_for_converse_api b64 dcfg ecr region msgs model
        instruction stream gp gs guardrail = .ok r) ↔
      ((List.lookup model base_model_ids).isSome = true ∧
       ∀ m ∈ msgs, m.role ≠ "system" → m.role ≠ "instruction" →
         ∀ c ∈ m.content, supportedContentType c.content_type = true) := by
  have hmsg : (∃ ms, mapMExcept (process_message b64 gs guardrail)
        (msgs.filter (fun m => !(m.role == "system" || m.role == "instruction")))
        = .ok ms) ↔
      (∀ m ∈ msgs, m.role ≠ "system" → m.role ≠ "instruction" →
        ∀ c ∈ m.content, supportedContentType c.content_type = true) := by
    rw [mapMExcept_ok_iff]
    constructor
    · intro hall m hm hs hi c hc
      have hmf : m ∈ msgs.filter
          (fun m => !(m.role == "system" || m.role == "instruction")) :=
        List.mem_filter.mpr ⟨hm, by simp [hs, hi]⟩
      obtain ⟨l, hl⟩ :=
        (process_message_ok_iff b64 gs guardrail m).mp (hall m hmf) c hc
      exact process_content_supported_of_ok hl
    · intro hall m hmf
      obtain ⟨hm, hp⟩ := List.mem_filter.mp hmf
      have hroles : m.role ≠ "system" ∧ m.role ≠ "instruction" := by
        simpa using hp
      exact (process_message_ok_iff b64 gs guardrail m).mpr
        (fun c hc => process_content_ok_of_supported b64 gs guardrail c m.role
          (hw m hm c hc) (hall m hm hroles.1 hroles.2 c hc))
  constructor
  · rintro ⟨r, hr⟩
    unfold compose_args_for_converse_api at hr
    split at hr
    · exact Except.noConfusion hr
    · rename_i ms hms
      split at hr
      · exact Except.noConfusion hr
      · rename_i mid hmid
        exact ⟨(get_model_id_ok_iff model ecr region).mp ⟨mid, hmid⟩,
               hmsg.mp ⟨ms, hms⟩⟩
  · rintro ⟨hmodel, hall⟩
    obtain ⟨ms, hms⟩ := hmsg.mpr hall
    obtain ⟨mid, hmid⟩ := (get_model_id_ok_iff model ecr region).mpr hmodel
    unfold compose_args_for_converse_api
    rw [hms, hmid]
    cases guardrail with
    | none => exact ⟨_, rfl⟩
    | some g =>
      by_cases hcond : (g.guardrail_arn ≠ "" ∧ g.guardrail_version ≠ "")
      · exact ⟨_, by dsimp only; rw [if_pos hcond]⟩
      · exact ⟨_, by dsimp only; rw [if_neg hcond]⟩

/-- Witness for C6: a concrete compose call with a text and an image
block succeeds. -/
theorem c6_witness :
    ∃ r, compose_args_for_converse_api (fun _ => []) dcfgW false "us-east-1"
        [⟨"user", [⟨"text", Body.pstr "hi", none, none⟩,
                   ⟨"image", Body.pstr "QUJD", none, none⟩]⟩]
        "claude-v3-sonnet" none false none none none = .ok r :=
  (c6_all_or_nothing (fun _ => []) dcfgW false "us-east-1"
      [⟨"user", [⟨"text", Body.pstr "hi", none, none⟩,
                 ⟨"image", Body.pstr "QUJD", none, none⟩]⟩]
      "claude-v3-sonnet" none false none none none (by decide)).mpr
    (by decide)

/-- C7: the composed request carries a guardrail block exactly when both
a guardrail arn and a guardrail version are truthy; when present its
trace is "enabled" and it carries the async stream processing mode
exactly when streaming was requested. -/
theorem c7_guardrail_block
    (b64 : String → List Nat) (dcfg : DefaultGenerationConfig)
    (ecr : Bool) (region : String) (msgs : List MessageModel)
    (model : String) (instruction : Option String) (stream : Bool)
    (gp : Option GenerationParamsModel) (gs : Option GroundingDict)
    (guardrail : Option BedrockGuardrailsModel) (r : ConverseApiRequest)
    (h : compose_args_for_converse_api b64 dcfg ecr region msgs model
        instruction stream gp gs guardrail = .ok r) :
    ((∃ gc, r.guardrailConfig = some gc) ↔
      (∃ g, guardrail = some g ∧ g.guardrail_arn ≠ "" ∧ g.guardrail_version ≠ "")) ∧
    (∀ gc, r.guardrailConfig = some gc →
      gc.trace = "enabled" ∧ (gc.streamProcessingMode = some "async" ↔ stream = true)) := by
  have hg := (compose_ok_elim h).2.2
  cases hguard : guardrail with
  | none =>
    have hnone : r.guardrailConfig = none := hg.2 hguard
    constructor
    · constructor
      · rintro ⟨gc, hgc⟩
        rw [hnone] at hgc
        exact Option.noConfusion hgc
      · rintro ⟨g, hgeq, -⟩
        exact Option.noConfusion hgeq
    · intro gc hgc
      rw [hnone] at hgc
      exact Option.noConfusion hgc
  | some g =>
    have hsome := hg.1 g hguard
    by_cases hcond : (g.guardrail_arn ≠ "" ∧ g.guardrail_version ≠ "")
    · have hcfg : r.guardrailConfig = some (composeGuardrailConfig stream g) :=
        hsome.1 hcond
      constructor
      · constructor
        · intro _
          exact ⟨g, rfl, hcond.1, hcond.2⟩
        · intro _
          exact ⟨_, hcfg⟩
      · intro gc hgc
        rw [hcfg] at hgc
        injection hgc with hgc
        subst hgc
        refine ⟨rfl, ?_⟩
        cases stream <;> simp [composeGuardrailConfig]
    · have hor : g.guardrail_arn = "" ∨ g.guardrail_version = "" := by
        by_cases ha : g.guardrail_arn = ""
        · exact Or.inl ha
        · right
          by_contra hv
          exact hcond ⟨ha, hv⟩
      have hnone : r.guardrailConfig = none := hsome.2 hor
      constructor
      · constructor
        · rintro ⟨gc, hgc⟩
          rw [hnone] at hgc
          exact Option.noConfusion hgc
        · rintro ⟨g', hg', harn, hver⟩
          injection hg' with hgg
          exact absurd ⟨hgg ▸ harn, hgg ▸ hver⟩ hcond
      · intro gc hgc
        rw [hnone] at hgc
        exact Option.noConfusion hgc

/-- Witness for C7 on the concrete request `reqW`. -/
theorem c7_witness :
    reqW.guardrailConfig.isSome = true ∧
    reqW.guardrailConfig.map GuardrailConfig.trace = some "enabled" ∧
    reqW.guardrailConfig.map GuardrailConfig.streamProcessingMode
      = some (some "async") := by
  have hc := c7_guardrail_block (fun _ => []) dcfgW false "us-east-1"
    [⟨"user", [⟨"text", Body.pstr "hi", none, none⟩]⟩] "claude-v3-sonnet"
    (some "You are terse") true none none (some guardrailW) reqW rfl
  obtain ⟨gc, hgc⟩ := hc.1.mpr ⟨guardrailW, rfl, by decide, by decide⟩
  have hp := hc.2 gc hgc
  rw [hgc]
  exact ⟨rfl, by rw [Option.map_some', hp.1],
         by rw [Option.map_some', hp.2.mpr rfl]⟩

/-- C8: an assistant text block whose body is not a plain string becomes
a single text block carrying a null value, without raising. -/
theorem c8_assistant_nonstring_text
    (b64 : String → List Nat) (gs : Option GroundingDict)
    (guardrail : Option BedrockGuardrailsModel)
    (t : String) (mt fn : Option String) :
    process_content b64 gs guardrail ⟨"text", .pother t, mt, fn⟩ "assistant" =
      .ok [WireBlock.text none] := by
  unfold process_content
  rw [if_pos rfl, if_neg (fun h => absurd h.1 (by decide)), if_pos rfl]

/-- C9: the system list of a composed request is empty exactly when no
truthy instruction was supplied; a truthy instruction yields a one-entry
list holding it; and the list is always either empty or that singleton —
absence is signalled by emptiness, never by a null (the field is a list
in every outcome). -/
theorem c9_system_block
    (b64 : String → List Nat) (dcfg : DefaultGenerationConfig)
    (ecr : Bool) (region : String) (msgs : List MessageModel)
    (model : String) (instruction : Option String) (stream : Bool)
    (gp : Option GenerationParamsModel) (gs : Option GroundingDict)
    (guardrail : Option BedrockGuardrailsModel) (r : ConverseApiRequest)
    (h : compose_args_for_converse_api b64 dcfg ecr region msgs model
        instruction stream gp gs guardrail = .ok r) :
    (r.system = [] ↔ pyOptStrTruthy instruction = false) ∧
    (∀ s, instruction = some s → s ≠ "" → r.system = [s]) ∧
    (r.system = [] ∨ ∃ s, instruction = some s ∧ r.system = [s]) := by
  have hs := (compose_ok_elim h).1
  cases hin : instruction with
  | none =>
    rw [hin] at hs
    simp only [composeSystem] at hs
    refine ⟨by simp [hs, pyOptStrTruthy], ?_, Or.inl hs⟩
    intro s hsome
    exact absurd hsome (by simp)
  | some s0 =>
    rw [hin] at hs
    simp only [composeSystem] at hs
    by_cases h0 : s0 = ""
    · rw [if_pos h0] at hs
      refine ⟨by simp [hs, pyOptStrTruthy, h0], ?_, Or.inl hs⟩
      intro s hsome hne
      injection hsome with he
      exact absurd (he ▸ h0) hne
    · rw [if_neg h0] at hs
      refine ⟨?_, ?_, Or.inr ⟨s0, rfl, hs⟩⟩
      · constructor
        · intro hempty
          rw [hs] at hempty
          exact List.noConfusion hempty
        · intro hfalse
          simp [pyOptStrTruthy, h0] at hfalse
      · intro s hsome hne
        injection hsome with he
        rw [← he]
        exact hs

/-- Witness for C9 on the concrete request `reqW`. -/
theorem c9_witness :
    reqW.system = ["You are terse"] ∧
    (reqW.system = [] ↔ pyOptStrTruthy (some "You are terse") = false) := by
  have hc := c9_system_block (fun _ => []) dcfgW false "us-east-1"
    [⟨"user", [⟨"text", Body.pstr "hi", none, none⟩]⟩] "claude-v3-sonnet"
    (some "You are terse") true none none (some guardrailW) reqW rfl
  exact ⟨hc.2.1 "You are terse" rfl (by decide), hc.1⟩

/-- C10: a model absent from the default-region pricing table makes the
calculation raise, whatever the supplied region's table contains,
because the default entry is the eagerly-evaluated fallback argument of
each per-field lookup. -/
theorem c10_default_entry_required
    (tbl : PricingTable) (model region : String) (it ot : Nat)
    (h : defaultHasModel tbl model = false) :
    ∃ e, calculate_price tbl model it ot region = .error e := by
  unfold defaultHasModel at h
  cases hdt : List.lookup "default" tbl with
  | none =>
    exact ⟨"KeyError: default",
      by simp [calculate_price, pyGetItem, Except.bind, hdt]⟩
  | some dt =>
    rw [hdt] at h
    have h' : (List.lookup model dt).isSome = false := h
    cases hmd : List.lookup model dt with
    | none =>
      exact ⟨"KeyError: " ++ model,
        by simp [calculate_price, pyGetItem, Except.bind, hdt, hmd]⟩
    | some fe =>
      rw [hmd] at h'
      simp at h'

/-- Witness for C10: the model is priced in the supplied region's table,
yet absent from the default table, and the call still raises. -/
theorem c10_witness :
    defaultHasModel pricingW2 "claude-v2" = false ∧
    (List.lookup "claude-v2"
      ((List.lookup "ap-northeast-1" pricingW2).getD [])).isSome = true ∧
    ∃ e, calculate_price pricingW2 "claude-v2" 1000 500 "ap-northeast-1" = .error e :=
  ⟨rfl, rfl,
   c10_default_entry_required pricingW2 "claude-v2" "ap-northeast-1" 1000 500 rfl⟩

end Bedrock
